import Mathlib

/-!
Verification development for the soft-assertion accumulator of the
`softAssertion` repository.

The embedding models the TypeScript sources:
  * `src/src/lib/assert.ts` — class `Assert` (soft and strict check methods,
    `assertAll`), the current core;
  * `src/src/lib/helper/LogHelper.ts` — `throwAssertionErrors`;
  * `src/unnamed/part_002` — legacy class `MagicAssert` (first variant, lodash
    based), modelled here as namespace `MagicAssertV2`;
  * `src/unnamed/part_003` — legacy class `MagicAssert` (node variant),
    modelled here as namespace `MagicAssertV3`.

Modelling conventions:
  * JavaScript runtime values are the inductive `JsValue`; numbers are
    `JsNum` (NaN, the two infinities, and finite values as rationals — the
    exact float grid does not matter for any verified claim, only NaN and
    ordering behaviour do).
  * Mutation of the `assertionErrors` field becomes explicit state passing on
    `AssertState`; a method that can throw returns the post-state together
    with an `Option AggregateError` (in JavaScript the mutation of
    `this.assertionErrors` survives the throw, so the post-state is always
    returned).
  * The JavaScript code stores `error.stack` as the record message; a stack
    string is the message prefixed by a platform dependent trace header.  The
    embedding stores the constructed message itself: every claim below treats
    the record text as a black box, none depends on the trace part.
  * Reference identity of JavaScript objects is not representable in a
    by-value embedding; lodash `isEqual` is by-value anyway, and the only
    place identity matters (`SameValueZero` membership for `includes` on
    arrays) is modelled as by-value on primitives and false on
    arrays/objects, which is the distinct-instance behaviour.  No claim
    depends on the `includes` predicate.
-/

/-- JavaScript number: NaN, the infinities, or a finite value (as a rational;
the binary float grid is irrelevant to the claims). -/
inductive JsNum where
  | nan : JsNum
  | posInf : JsNum
  | negInf : JsNum
  | fin (q : ℚ) : JsNum
deriving DecidableEq, Repr

/-- JavaScript `<=` on numbers: any comparison with NaN is false. -/
def JsNum.jsLe : JsNum → JsNum → Bool
  | .nan, _ => false
  | _, .nan => false
  | .negInf, _ => true
  | .posInf, .posInf => true
  | .posInf, .negInf => false
  | .posInf, .fin _ => false
  | .fin _, .posInf => true
  | .fin _, .negInf => false
  | .fin a, .fin b => a ≤ b

/-- JavaScript `>=` on numbers (`a >= b` is `b <= a`; NaN always false). -/
def JsNum.jsGe (a b : JsNum) : Bool := JsNum.jsLe b a

/-- Rendering of a number by JavaScript string coercion (`${n}`).  Finite
values are rendered through the rational printer; the exact digits of the
float printer are irrelevant to every claim. -/
def JsNum.render : JsNum → String
  | .nan => "NaN"
  | .posInf => "Infinity"
  | .negInf => "-Infinity"
  | .fin q => toString q

/-- JavaScript runtime value (the shapes the assertion library inspects):
`null`, `undefined`, booleans, numbers, strings, arrays, and plain
key-value objects. -/
inductive JsValue where
  | vNull : JsValue
  | vUndefined : JsValue
  | vBool (b : Bool) : JsValue
  | vNum (n : JsNum) : JsValue
  | vStr (s : String) : JsValue
  | vArr (xs : List JsValue) : JsValue
  | vObj (fields : List (String × JsValue)) : JsValue
deriving Repr

/-- JavaScript `typeof`. -/
def JsValue.typeOf : JsValue → String
  | .vNull => "object"
  | .vUndefined => "undefined"
  | .vBool _ => "boolean"
  | .vNum _ => "number"
  | .vStr _ => "string"
  | .vArr _ => "object"
  | .vObj _ => "object"

/-- JavaScript truthiness (`if (value)`). -/
def JsValue.toBool : JsValue → Bool
  | .vNull => false
  | .vUndefined => false
  | .vBool b => b
  | .vNum .nan => false
  | .vNum (.fin q) => decide (q ≠ 0)
  | .vNum .posInf => true
  | .vNum .negInf => true
  | .vStr s => !s.isEmpty
  | .vArr _ => true
  | .vObj _ => true

/-- First own field of a JavaScript object with the given key
(`obj[k]`; JavaScript objects never hold a key twice). -/
def lookupField (k : String) : List (String × JsValue) → Option JsValue
  | [] => none
  | (k', v) :: rest => if k' = k then some v else lookupField k rest

mutual
/-- lodash `_.isEqual`: deep structural comparison.  Primitives compare by
value with NaN equal to NaN (`deriving DecidableEq` on `JsNum` makes `nan`
equal to itself, matching the lodash NaN clause); arrays compare pointwise in
order; plain objects compare by key set and per-key values, independent of
key order. -/
def isEqual : JsValue → JsValue → Bool
  | .vNull, .vNull => true
  | .vUndefined, .vUndefined => true
  | .vBool a, .vBool b => a == b
  | .vNum a, .vNum b => a == b
  | .vStr a, .vStr b => a == b
  | .vArr xs, .vArr ys => isEqualList xs ys
  | .vObj fa, .vObj fb => fa.length == fb.length && isEqualFields fa fb
  | _, _ => false
termination_by a _ => sizeOf a

/-- Pointwise deep comparison of two arrays. -/
def isEqualList : List JsValue → List JsValue → Bool
  | [], [] => true
  | x :: xs, y :: ys => isEqual x y && isEqualList xs ys
  | _, _ => false
termination_by xs _ => sizeOf xs

/-- Every field of the first object is present in the second with a deeply
equal value (lodash walks the keys of the first argument). -/
def isEqualFields : List (String × JsValue) → List (String × JsValue) → Bool
  | [], _ => true
  | (k, v) :: rest, other =>
    (match lookupField k other with
     | some w => isEqual v w
     | none => false) && isEqualFields rest other
termination_by fs _ => sizeOf fs
end

mutual
/-- JavaScript string coercion `${value}` (template literal).  Arrays join
their stringified elements with commas, objects render as
`[object Object]`. -/
def JsValue.render : JsValue → String
  | .vNull => "null"
  | .vUndefined => "undefined"
  | .vBool b => if b then "true" else "false"
  | .vNum n => n.render
  | .vStr s => s
  | .vArr xs => String.intercalate "," (JsValue.renderList xs)
  | .vObj _ => "[object Object]"
termination_by v => sizeOf v

/-- Stringification of array elements for `JsValue.render`. -/
def JsValue.renderList : List JsValue → List String
  | [] => []
  | x :: xs => JsValue.render x :: JsValue.renderList xs
termination_by xs => sizeOf xs
end

mutual
/-- Model of `JSON.stringify`, as used by the `includes` failure message.  Strings are
quoted (escaping of special characters inside them is not modelled — no
claim inspects this text), `undefined`/NaN/Infinity follow the JSON rules,
arrays and objects recurse. -/
def jsonStringify : JsValue → String
  | .vNull => "null"
  | .vUndefined => "undefined"
  | .vBool b => if b then "true" else "false"
  | .vNum .nan => "null"
  | .vNum .posInf => "null"
  | .vNum .negInf => "null"
  | .vNum (.fin q) => toString q
  | .vStr s => "\"" ++ s ++ "\""
  | .vArr xs => "[" ++ String.intercalate "," (jsonStringifyList xs) ++ "]"
  | .vObj fs => "\x7b" ++ String.intercalate "," (jsonStringifyFields fs) ++ "\x7d"
termination_by v => sizeOf v

/-- JSON rendering of array elements. -/
def jsonStringifyList : List JsValue → List String
  | [] => []
  | x :: xs => jsonStringify x :: jsonStringifyList xs
termination_by xs => sizeOf xs

/-- JSON rendering of object fields. -/
def jsonStringifyFields : List (String × JsValue) → List String
  | [] => []
  | (k, v) :: fs => ("\"" ++ k ++ "\":" ++ jsonStringify v) :: jsonStringifyFields fs
termination_by fs => sizeOf fs
end

/-- lodash `_.isNaN`: true exactly for the number NaN. -/
def lodashIsNaN : JsValue → Bool
  | .vNum .nan => true
  | _ => false

/-- lodash `_.isString`. -/
def lodashIsString : JsValue → Bool
  | .vStr _ => true
  | _ => false

/-- lodash `_.isObject`: objects, arrays (and functions, not modelled); not
`null`, not primitives. -/
def lodashIsObject : JsValue → Bool
  | .vObj _ => true
  | .vArr _ => true
  | _ => false

/-- lodash `_.isArray`. -/
def lodashIsArray : JsValue → Bool
  | .vArr _ => true
  | _ => false

/-- lodash `_.isEmpty`: true for `null`/`undefined`, for booleans and
numbers (no length or keys), and for empty strings, arrays and objects. -/
def lodashIsEmpty : JsValue → Bool
  | .vNull => true
  | .vUndefined => true
  | .vBool _ => true
  | .vNum _ => true
  | .vStr s => s.isEmpty
  | .vArr xs => xs.isEmpty
  | .vObj fs => fs.isEmpty

/-- Contiguous-sublist test on character lists (substring search). -/
def charsContain (hay needle : List Char) : Bool :=
  hay.tails.any (fun t => needle.isPrefixOf t)

/-- Model of `SameValueZero` as lodash array membership uses it: primitives by value
with NaN equal to NaN; arrays and objects compare by reference, which a
by-value embedding renders as false (distinct instances). -/
def sameValueZero : JsValue → JsValue → Bool
  | .vNull, .vNull => true
  | .vUndefined, .vUndefined => true
  | .vBool a, .vBool b => a == b
  | .vNum a, .vNum b => a == b
  | .vStr a, .vStr b => a == b
  | _, _ => false

/-- lodash `_.includes`: substring test on strings (the expected value is
string coerced), `SameValueZero` membership on arrays, false on other
primitives. -/
def lodashIncludes (a e : JsValue) : Bool :=
  match a with
  | .vStr s => charsContain s.toList (JsValue.render e).toList
  | .vArr xs => xs.any (fun x => sameValueZero x e)
  | _ => false

/-- lodash `_.has`: own-key test (a path expression is treated as a single
key; no claim depends on path splitting). -/
def lodashHas (a : JsValue) (key : JsValue) : Bool :=
  match a with
  | .vObj fs => (lookupField (JsValue.render key) fs).isSome
  | _ => false

/-- One recorded failure (`{ message: string }` pushed onto
`assertionErrors`). -/
structure FailureRecord where
  message : String
deriving DecidableEq, Repr

/-- The state of one `Assert` instance: the `assertionErrors` field. -/
structure AssertState where
  errors : List FailureRecord
deriving DecidableEq, Repr

/-- The single error object thrown by `throwAssertionErrors` (an aggregate of
all recorded failures) or re-raised by a strict check. -/
structure AggregateError where
  message : String
deriving DecidableEq, Repr

namespace LogHelper

/-- Embedding of `throwAssertionErrors` from `src/src/lib/helper/LogHelper.ts`: formats every
record as `❌ [Assertion <index+1>]: \n<message>\n`, joins with `"\n"`, and
throws one `Error` whose message prepends the banner line.  The embedding
returns the thrown error. -/
def throwAssertionErrors (errorMessageData : List FailureRecord) : AggregateError :=
  let errorMessages := String.intercalate "\n"
    (errorMessageData.mapIdx
      (fun index r => "❌ [Assertion " ++ toString (index + 1) ++ "]: \n" ++ r.message ++ "\n"))
  ⟨"Assertion errors detected. See details below (expand in Allure report):\n" ++ errorMessages⟩

end LogHelper

/-- Strict-equality test against the `null` sentinel (`value === null`). -/
def isNullSentinel : JsValue → Bool
  | .vNull => true
  | _ => false

/-- Strict-equality test against `undefined` (`value === undefined`). -/
def isUndefinedSentinel : JsValue → Bool
  | .vUndefined => true
  | _ => false

/-- Model of `this.assertionErrors.push({ message })`: append one record at the end of
the pending list. -/
def AssertState.push (s : AssertState) (msg : String) : AssertState :=
  ⟨s.errors ++ [⟨msg⟩]⟩

namespace Assert

/-- Embedding of `Assert.equals` (src/src/lib/assert.ts:40): records a failure when
`_.isEqual(actual, expected)` is false; never raises. -/
def equals (actual expected : JsValue) (message : String) (s : AssertState) : AssertState :=
  if !(isEqual actual expected) then
    s.push ("[Assertion failed: equals] " ++ message ++ "\n  Expected: "
      ++ expected.render ++ "\n  Actual: " ++ actual.render)
  else s

/-- Embedding of `Assert.includes` (src/src/lib/assert.ts:78): has-key test for plain
objects, lodash `includes` otherwise. -/
def includes (actual expected : JsValue) (message : String) (s : AssertState) : AssertState :=
  let condition :=
    if lodashIsObject actual && !lodashIsArray actual then lodashHas actual expected
    else lodashIncludes actual expected
  if !condition then
    s.push ("[Assertion failed: includes] " ++ message ++ "\n  Expected: "
      ++ jsonStringify expected ++ "\n  Actual: " ++ jsonStringify actual)
  else s

/-- Embedding of `Assert.isTrue` (src/src/lib/assert.ts:117): records a failure when the
value is falsy or not of runtime type boolean. -/
def isTrue (value : JsValue) (message : String) (s : AssertState) : AssertState :=
  if !value.toBool || value.typeOf != "boolean" then
    s.push ("[Assertion failed: isTrue] " ++ message
      ++ "\n  Expected: true\n  Actual: " ++ value.render)
  else s

/-- Embedding of `Assert.isFalse` (src/src/lib/assert.ts:149): records a failure when the
value is truthy (`if (value)`), so every falsy value passes. -/
def isFalse (value : JsValue) (message : String) (s : AssertState) : AssertState :=
  if value.toBool then
    s.push ("[Assertion failed: isFalse] " ++ message
      ++ "\n  Expected: false\n  Actual: " ++ value.render)
  else s

/-- Embedding of `Assert.notEqual` (src/src/lib/assert.ts:182): records a failure when
`_.isEqual(actual, expected)` holds. -/
def notEqual (actual expected : JsValue) (message : String) (s : AssertState) : AssertState :=
  if isEqual actual expected then
    s.push ("[Assertion failed: notEqual] " ++ message
      ++ "\n  Value should not be equal to: " ++ expected.render
      ++ "\n  Actual: " ++ actual.render)
  else s

/-- Embedding of `Assert.greaterThan` (src/src/lib/assert.ts:217): records a failure when
`actual <= expected`. -/
def greaterThan (actual expected : JsNum) (message : String) (s : AssertState) : AssertState :=
  if actual.jsLe expected then
    s.push ("[Assertion failed: greaterThan] " ++ message
      ++ "\n  Expected a value greater than: " ++ expected.render
      ++ "\n  Actual: " ++ actual.render)
  else s

/-- Embedding of `Assert.isLessThan` (src/src/lib/assert.ts:255): records a failure when
`actual >= expected`. -/
def isLessThan (actual expected : JsNum) (message : String) (s : AssertState) : AssertState :=
  if actual.jsGe expected then
    s.push ("[Assertion failed: isLessThan] " ++ message
      ++ "\n  Expected a value less than: " ++ expected.render
      ++ "\n  Actual: " ++ actual.render)
  else s

/-- Embedding of `Assert.notNull` (src/src/lib/assert.ts:287). -/
def notNull (value : JsValue) (message : String) (s : AssertState) : AssertState :=
  if isNullSentinel value then
    s.push ("[Assertion failed: notNull] " ++ message
      ++ "\n  Expected a non-null value\n  Actual: " ++ value.render)
  else s

/-- Embedding of `Assert.isNull` (src/src/lib/assert.ts:319). -/
def isNull (value : JsValue) (message : String) (s : AssertState) : AssertState :=
  if !isNullSentinel value then
    s.push ("[Assertion failed: isNull] " ++ message
      ++ "\n  Expected a null value\n  Actual: " ++ value.render)
  else s

/-- Embedding of `Assert.isDefined` (src/src/lib/assert.ts:353). -/
def isDefined (value : JsValue) (message : String) (s : AssertState) : AssertState :=
  if isUndefinedSentinel value then
    s.push ("[Assertion failed: isDefined] " ++ message
      ++ "\n  Expected a defined value\n  Actual: " ++ value.render)
  else s

/-- Embedding of `Assert.isUndefined` (src/src/lib/assert.ts:387). -/
def isUndefined (value : JsValue) (message : String) (s : AssertState) : AssertState :=
  if !isUndefinedSentinel value then
    s.push ("[Assertion failed: isUndefined] " ++ message
      ++ "\n  Expected an undefined value\n  Actual: " ++ value.render)
  else s

/-- Embedding of `Assert.isNumber` (src/src/lib/assert.ts:426): the live guard is only
`_.isNaN(value)` (the fuller check is commented out in the source), so the
only value that records a failure is the number NaN. -/
def isNumber (value : JsValue) (message : String) (s : AssertState) : AssertState :=
  if lodashIsNaN value then
    s.push ("[Assertion failed: isNumber] " ++ message
      ++ "\n  Expected a number\n  Actual: " ++ value.render)
  else s

/-- Embedding of `Assert.isString` (src/src/lib/assert.ts:471). -/
def isString (value : JsValue) (message : String) (s : AssertState) : AssertState :=
  if !lodashIsString value then
    s.push ("[Assertion failed: isString] " ++ message
      ++ "\n  Expected a string\n  Actual: " ++ value.render
      ++ " (type: " ++ value.typeOf ++ ")")
  else s

/-- Embedding of `Assert.isEmpty` (src/src/lib/assert.ts:499). -/
def isEmpty (value : JsValue) (message : String) (s : AssertState) : AssertState :=
  if !lodashIsEmpty value then
    s.push ("[Assertion failed: isEmpty] " ++ message
      ++ "\n  Expected an empty value\n  Actual: " ++ value.render)
  else s

/-- Embedding of `Assert.assertAll` (src/src/lib/assert.ts:1031): when the pending list is
non-empty, snapshot it, clear the live list, and throw the aggregate built by
`throwAssertionErrors`; otherwise do nothing.  The post-state is returned
alongside the optionally thrown error (in JavaScript the cleared field
survives the throw). -/
def assertAll (s : AssertState) : AssertState × Option AggregateError :=
  if s.errors.length ≠ 0 then
    (⟨[]⟩, some (LogHelper.throwAssertionErrors s.errors))
  else (s, none)

/-- Embedding of `Assert.strictEquals` (src/src/lib/assert.ts:545): on failure pushes the
record and immediately invokes `assertAll`. -/
def strictEquals (actual expected : JsValue) (message : String) (s : AssertState) :
    AssertState × Option AggregateError :=
  if !(isEqual actual expected) then
    assertAll (s.push ("[Assertion failed: strictEquals] " ++ message
      ++ "\n  Expected: " ++ expected.render ++ "\n  Actual: " ++ actual.render))
  else (s, none)

/-- Embedding of `Assert.strictIncludes` (src/src/lib/assert.ts:584). -/
def strictIncludes (actual expected : JsValue) (message : String) (s : AssertState) :
    AssertState × Option AggregateError :=
  let condition :=
    if lodashIsObject actual && !lodashIsArray actual then lodashHas actual expected
    else lodashIncludes actual expected
  if !condition then
    assertAll (s.push ("[Assertion failed: strictIncludes] " ++ message
      ++ "\n  Expected: " ++ jsonStringify expected
      ++ "\n  Actual: " ++ jsonStringify actual))
  else (s, none)

/-- Embedding of `Assert.strictIsTrue` (src/src/lib/assert.ts:624). -/
def strictIsTrue (value : JsValue) (message : String) (s : AssertState) :
    AssertState × Option AggregateError :=
  if !value.toBool || value.typeOf != "boolean" then
    assertAll (s.push ("[Assertion failed: strictIsTrue] " ++ message
      ++ "\n  Expected: true\n  Actual: " ++ value.render))
  else (s, none)

/-- Embedding of `Assert.strictIsFalse` (src/src/lib/assert.ts:657). -/
def strictIsFalse (value : JsValue) (message : String) (s : AssertState) :
    AssertState × Option AggregateError :=
  if value.toBool then
    assertAll (s.push ("[Assertion failed: strictIsFalse] " ++ message
      ++ "\n  Expected: false\n  Actual: " ++ value.render))
  else (s, none)

/-- Embedding of `Assert.strictNotEqual` (src/src/lib/assert.ts:691). -/
def strictNotEqual (actual expected : JsValue) (message : String) (s : AssertState) :
    AssertState × Option AggregateError :=
  if isEqual actual expected then
    assertAll (s.push ("[Assertion failed: strictNotEqual] " ++ message
      ++ "\n  Value should not be equal to: " ++ expected.render
      ++ "\n  Actual: " ++ actual.render))
  else (s, none)

/-- Embedding of `Assert.strictGreaterThan` (src/src/lib/assert.ts:727). -/
def strictGreaterThan (actual expected : JsNum) (message : String) (s : AssertState) :
    AssertState × Option AggregateError :=
  if actual.jsLe expected then
    assertAll (s.push ("[Assertion failed: strictGreaterThan] " ++ message
      ++ "\n  Expected a value greater than: " ++ expected.render
      ++ "\n  Actual: " ++ actual.render))
  else (s, none)

/-- Embedding of `Assert.strictIsLessThan` (src/src/lib/assert.ts:766): the failure branch
pushes the record but — unlike every other strict method of the class — does
NOT invoke `assertAll`, so it never raises. -/
def strictIsLessThan (actual expected : JsNum) (message : String) (s : AssertState) :
    AssertState × Option AggregateError :=
  if actual.jsGe expected then
    (s.push ("[Assertion failed: strictIsLessThan] " ++ message
      ++ "\n  Expected a value less than: " ++ expected.render
      ++ "\n  Actual: " ++ actual.render), none)
  else (s, none)

/-- Embedding of `Assert.strictNotNull` (src/src/lib/assert.ts:798). -/
def strictNotNull (value : JsValue) (message : String) (s : AssertState) :
    AssertState × Option AggregateError :=
  if isNullSentinel value then
    assertAll (s.push ("[Assertion failed: strictNotNull] " ++ message
      ++ "\n  Expected a non-null value\n  Actual: " ++ value.render))
  else (s, none)

/-- Embedding of `Assert.strictIsNull` (src/src/lib/assert.ts:831). -/
def strictIsNull (value : JsValue) (message : String) (s : AssertState) :
    AssertState × Option AggregateError :=
  if !isNullSentinel value then
    assertAll (s.push ("[Assertion failed: strictIsNull] " ++ message
      ++ "\n  Expected a null value\n  Actual: " ++ value.render))
  else (s, none)

/-- Embedding of `Assert.strictIsDefined` (src/src/lib/assert.ts:866). -/
def strictIsDefined (value : JsValue) (message : String) (s : AssertState) :
    AssertState × Option AggregateError :=
  if isUndefinedSentinel value then
    assertAll (s.push ("[Assertion failed: strictIsDefined] " ++ message
      ++ "\n  Expected a defined value\n  Actual: " ++ value.render))
  else (s, none)

/-- Embedding of `Assert.strictIsUndefined` (src/src/lib/assert.ts:901). -/
def strictIsUndefined (value : JsValue) (message : String) (s : AssertState) :
    AssertState × Option AggregateError :=
  if !isUndefinedSentinel value then
    assertAll (s.push ("[Assertion failed: strictIsUndefined] " ++ message
      ++ "\n  Expected an undefined value\n  Actual: " ++ value.render))
  else (s, none)

/-- Embedding of `Assert.strictIsNumber` (src/src/lib/assert.ts:941): same live guard as
`isNumber` (`_.isNaN` only). -/
def strictIsNumber (value : JsValue) (message : String) (s : AssertState) :
    AssertState × Option AggregateError :=
  if lodashIsNaN value then
    assertAll (s.push ("[Assertion failed: strictIsNumber] " ++ message
      ++ "\n  Expected a number\n  Actual: " ++ value.render))
  else (s, none)

/-- Embedding of `Assert.strictIsString` (src/src/lib/assert.ts:987). -/
def strictIsString (value : JsValue) (message : String) (s : AssertState) :
    AssertState × Option AggregateError :=
  if !lodashIsString value then
    assertAll (s.push ("[Assertion failed: strictIsString] " ++ message
      ++ "\n  Expected a string\n  Actual: " ++ value.render
      ++ " (type: " ++ value.typeOf ++ ")"))
  else (s, none)

/-- Embedding of `Assert.strictIsEmpty` (src/src/lib/assert.ts:1016). -/
def strictIsEmpty (value : JsValue) (message : String) (s : AssertState) :
    AssertState × Option AggregateError :=
  if !lodashIsEmpty value then
    assertAll (s.push ("[Assertion failed: strictIsEmpty] " ++ message
      ++ "\n  Expected an empty value\n  Actual: " ++ value.render))
  else (s, none)

end Assert

namespace MagicAssertV2

/-- Embedding of `MagicAssert.equals` of the lodash variant (src/unnamed/part_002:41):
records a failure when `_.isEqual(actual, expected)` is false. -/
def equals (actual expected : JsValue) (message : String) (s : AssertState) : AssertState :=
  if !(isEqual actual expected) then
    s.push (message ++ "\nActual: " ++ actual.render
      ++ " is not equal to Expected: " ++ expected.render ++ "\n")
  else s

/-- Embedding of `MagicAssert.notEqual` of the lodash variant (src/unnamed/part_002:176):
the guard is `if (!(_c.isEqual(actual, expected)))`, so a failure is recorded
exactly when the two values are NOT deeply equal — the same condition as
`equals`, not its negation. -/
def notEqual (actual expected : JsValue) (message : String) (s : AssertState) : AssertState :=
  if !(isEqual actual expected) then
    s.push (message ++ "\nActual: " ++ actual.render
      ++ " should not be equal to Expected: " ++ expected.render ++ "\n")
  else s

end MagicAssertV2

namespace MagicAssertV3

/-- Embedding of `MagicAssert.isTrue` of the node variant (src/unnamed/part_003:146): the
body is `try { if (value === true) throw ... } catch { push }`, so a failure
is recorded exactly when the value IS the boolean true. -/
def isTrue (value : Bool) (message : String) (s : AssertState) : AssertState :=
  if value = true then
    s.push (message ++ "\nActual: " ++ (if value then "true" else "false")
      ++ "\nExpected: true\n")
  else s

end MagicAssertV3

/-- One invocation of a check method of the `Assert` class, with its runtime
arguments: the fourteen soft methods and the fourteen strict methods, in
source order. -/
inductive CheckCall where
  | equals (actual expected : JsValue) (message : String)
  | includes (actual expected : JsValue) (message : String)
  | isTrue (value : JsValue) (message : String)
  | isFalse (value : JsValue) (message : String)
  | notEqual (actual expected : JsValue) (message : String)
  | greaterThan (actual expected : JsNum) (message : String)
  | isLessThan (actual expected : JsNum) (message : String)
  | notNull (value : JsValue) (message : String)
  | isNull (value : JsValue) (message : String)
  | isDefined (value : JsValue) (message : String)
  | isUndefined (value : JsValue) (message : String)
  | isNumber (value : JsValue) (message : String)
  | isString (value : JsValue) (message : String)
  | isEmpty (value : JsValue) (message : String)
  | strictEquals (actual expected : JsValue) (message : String)
  | strictIncludes (actual expected : JsValue) (message : String)
  | strictIsTrue (value : JsValue) (message : String)
  | strictIsFalse (value : JsValue) (message : String)
  | strictNotEqual (actual expected : JsValue) (message : String)
  | strictGreaterThan (actual expected : JsNum) (message : String)
  | strictIsLessThan (actual expected : JsNum) (message : String)
  | strictNotNull (value : JsValue) (message : String)
  | strictIsNull (value : JsValue) (message : String)
  | strictIsDefined (value : JsValue) (message : String)
  | strictIsUndefined (value : JsValue) (message : String)
  | strictIsNumber (value : JsValue) (message : String)
  | strictIsString (value : JsValue) (message : String)
  | strictIsEmpty (value : JsValue) (message : String)

/-- Whether the call is to a method of the strict section of the class. -/
def CheckCall.isStrict : CheckCall → Bool
  | .equals .. | .includes .. | .isTrue .. | .isFalse .. | .notEqual ..
  | .greaterThan .. | .isLessThan .. | .notNull .. | .isNull ..
  | .isDefined .. | .isUndefined .. | .isNumber .. | .isString ..
  | .isEmpty .. => false
  | _ => true

/-- Dispatch one check call on an accumulator state.  A soft method is a pure
state transformer and raises nothing; a strict method may raise the
aggregate error produced by the `assertAll` it invokes. -/
def Assert.run : CheckCall → AssertState → AssertState × Option AggregateError
  | .equals a e m, s => (Assert.equals a e m s, none)
  | .includes a e m, s => (Assert.includes a e m s, none)
  | .isTrue v m, s => (Assert.isTrue v m s, none)
  | .isFalse v m, s => (Assert.isFalse v m s, none)
  | .notEqual a e m, s => (Assert.notEqual a e m s, none)
  | .greaterThan a e m, s => (Assert.greaterThan a e m s, none)
  | .isLessThan a e m, s => (Assert.isLessThan a e m s, none)
  | .notNull v m, s => (Assert.notNull v m s, none)
  | .isNull v m, s => (Assert.isNull v m s, none)
  | .isDefined v m, s => (Assert.isDefined v m s, none)
  | .isUndefined v m, s => (Assert.isUndefined v m s, none)
  | .isNumber v m, s => (Assert.isNumber v m s, none)
  | .isString v m, s => (Assert.isString v m s, none)
  | .isEmpty v m, s => (Assert.isEmpty v m s, none)
  | .strictEquals a e m, s => Assert.strictEquals a e m s
  | .strictIncludes a e m, s => Assert.strictIncludes a e m s
  | .strictIsTrue v m, s => Assert.strictIsTrue v m s
  | .strictIsFalse v m, s => Assert.strictIsFalse v m s
  | .strictNotEqual a e m, s => Assert.strictNotEqual a e m s
  | .strictGreaterThan a e m, s => Assert.strictGreaterThan a e m s
  | .strictIsLessThan a e m, s => Assert.strictIsLessThan a e m s
  | .strictNotNull v m, s => Assert.strictNotNull v m s
  | .strictIsNull v m, s => Assert.strictIsNull v m s
  | .strictIsDefined v m, s => Assert.strictIsDefined v m s
  | .strictIsUndefined v m, s => Assert.strictIsUndefined v m s
  | .strictIsNumber v m, s => Assert.strictIsNumber v m s
  | .strictIsString v m, s => Assert.strictIsString v m s
  | .strictIsEmpty v m, s => Assert.strictIsEmpty v m s

/-- No key occurs twice in the field list (JavaScript objects cannot hold a
key twice; the by-value embedding states it explicitly). -/
def keysNodup : List (String × JsValue) → Bool
  | [] => true
  | (k, _) :: rest => !(rest.any (fun p => p.1 == k)) && keysNodup rest

mutual
/-- A value is representable by an actual JavaScript value: no object in it
holds a duplicate key. -/
def JsWF : JsValue → Bool
  | .vNull => true
  | .vUndefined => true
  | .vBool _ => true
  | .vNum _ => true
  | .vStr _ => true
  | .vArr xs => JsWFList xs
  | .vObj fs => keysNodup fs && JsWFFields fs
termination_by v => sizeOf v

/-- Well-formedness of every element of an array. -/
def JsWFList : List JsValue → Bool
  | [] => true
  | x :: xs => JsWF x && JsWFList xs
termination_by xs => sizeOf xs

/-- Well-formedness of every field value of an object. -/
def JsWFFields : List (String × JsValue) → Bool
  | [] => true
  | (_, v) :: fs => JsWF v && JsWFFields fs
termination_by fs => sizeOf fs
end

namespace LogHelperSpec

/-- Modelled from the claim wording of C4: one pending failure is rendered as
`❌ [Assertion <n>]: ` plus a newline plus the failure message plus a
newline. -/
def renderEntry (n : Nat) (r : FailureRecord) : String :=
  "❌ [Assertion " ++ toString n ++ "]: " ++ "\n" ++ r.message ++ "\n"

/-- The entries rendered in insertion order with consecutive 1-based indices
starting at `n`. -/
def renderFrom : Nat → List FailureRecord → List String
  | _, [] => []
  | n, r :: rs => renderEntry n r :: renderFrom (n + 1) rs

/-- The aggregate message the claim describes: the leading banner line, then
the entries in original insertion order with indices starting at 1.  Each
entry ends with a newline and the joiner contributes one more, which is the
blank-line separation the claim states. -/
def specMessage (records : List FailureRecord) : String :=
  "Assertion errors detected. See details below (expand in Allure report):"
    ++ "\n" ++ String.intercalate "\n" (renderFrom 1 records)

end LogHelperSpec

/-- What one check call may do to the pending list: if it raises nothing the
list is unchanged or extended by exactly one record at the end; if it raises,
the raised error is the aggregate of the old list plus the one new record,
and the raise (an `assertAll` drain) left the live list empty. -/
def StepSpec (s : AssertState) (out : AssertState × Option AggregateError) : Prop :=
  (out.2 = none →
    out.1.errors = s.errors ∨ ∃ r, out.1.errors = s.errors ++ [r]) ∧
  (∀ e, out.2 = some e →
    out.1.errors = [] ∧ ∃ r, e = LogHelper.throwAssertionErrors (s.errors ++ [r]))

theorem AssertState.push_errors (s : AssertState) (msg : String) :
    (s.push msg).errors = s.errors ++ [⟨msg⟩] := rfl

theorem appendOne_ne_self (l : List FailureRecord) (r : FailureRecord) :
    l ++ [r] ≠ l := by
  intro h
  have := congrArg List.length h
  simp at this

/-- Running `assertAll` on a state that just received a push always raises: the list
is non-empty, gets snapshotted and cleared, and the aggregate is thrown. -/
theorem Assert.assertAll_push (s : AssertState) (msg : String) :
    Assert.assertAll (s.push msg) =
      (⟨[]⟩, some (LogHelper.throwAssertionErrors (s.errors ++ [⟨msg⟩]))) := by
  simp [Assert.assertAll, AssertState.push]

/-- A soft method body (`if cond then push else skip`, raising nothing)
satisfies the step characterization. -/
theorem stepSpec_soft (cond : Bool) (msg : String) (s : AssertState) :
    StepSpec s (if cond then s.push msg else s, none) := by
  refine ⟨fun _ => ?_, fun e he => by simp at he⟩
  by_cases h : cond
  · exact Or.inr ⟨⟨msg⟩, by simp [h, AssertState.push]⟩
  · exact Or.inl (by simp [h])

/-- A strict method body (`if cond then (push; assertAll) else skip`)
satisfies the step characterization. -/
theorem stepSpec_strict (cond : Bool) (msg : String) (s : AssertState) :
    StepSpec s (if cond then Assert.assertAll (s.push msg) else (s, none)) := by
  by_cases h : cond
  · rw [if_pos h, Assert.assertAll_push]
    exact ⟨fun hn => by simp at hn,
      fun e he => ⟨rfl, ⟨⟨msg⟩, (Option.some.inj he).symm⟩⟩⟩
  · rw [if_neg h]
    exact ⟨fun _ => Or.inl rfl, fun e he => by simp at he⟩

/-- The `strictIsLessThan` body (`if cond then push else skip`, raising
nothing) satisfies the step characterization. -/
theorem stepSpec_pushOnly (cond : Bool) (msg : String) (s : AssertState) :
    StepSpec s (if cond then (s.push msg, none) else (s, none)) := by
  constructor
  · intro _
    by_cases h : cond
    · exact Or.inr ⟨⟨msg⟩, by simp [h, AssertState.push]⟩
    · exact Or.inl (by simp [h])
  · intro e he
    by_cases h : cond <;> simp [h] at he

/-- Every check method of the `Assert` class satisfies the step
characterization: at most one append, removal only through the `assertAll`
drain a failing strict check triggers, and a raised aggregate always carries
the old records plus the one new record. -/
theorem Assert.run_stepSpec (c : CheckCall) (s : AssertState) :
    StepSpec s (Assert.run c s) := by
  cases c <;>
    simp only [Assert.run, Assert.equals, Assert.includes, Assert.isTrue, Assert.isFalse,
      Assert.notEqual, Assert.greaterThan, Assert.isLessThan, Assert.notNull, Assert.isNull,
      Assert.isDefined, Assert.isUndefined, Assert.isNumber, Assert.isString, Assert.isEmpty,
      Assert.strictEquals, Assert.strictIncludes, Assert.strictIsTrue, Assert.strictIsFalse,
      Assert.strictNotEqual, Assert.strictGreaterThan, Assert.strictIsLessThan,
      Assert.strictNotNull, Assert.strictIsNull, Assert.strictIsDefined,
      Assert.strictIsUndefined, Assert.strictIsNumber, Assert.strictIsString,
      Assert.strictIsEmpty] <;>
    first
      | exact stepSpec_soft _ _ _
      | exact stepSpec_strict _ _ _
      | exact stepSpec_pushOnly _ _ _

/-- A call to a soft method never raises. -/
theorem Assert.run_soft_none (c : CheckCall) (h : c.isStrict = false) (s : AssertState) :
    (Assert.run c s).2 = none := by
  cases c <;> simp_all [CheckCall.isStrict, Assert.run]

/-- C1: every soft (non-strict) check method of the accumulator returns
normally and never raises; a failing check only appends one `FailureRecord`
at the end of the pending list and a passing check changes nothing and raises
nothing.  (Predicate evaluation is total in the embedding, matching the
claim precondition that evaluation itself does not throw.) -/
theorem claim_C1_soft_checks_never_raise (c : CheckCall) (s : AssertState)
    (h : c.isStrict = false) :
    (Assert.run c s).2 = none ∧
      ((Assert.run c s).1.errors = s.errors ∨
        ∃ r, (Assert.run c s).1.errors = s.errors ++ [r]) := by
  have hn := Assert.run_soft_none c h s
  exact ⟨hn, (Assert.run_stepSpec c s).1 hn⟩

/-- Witness for C1 at the concrete soft call `equals("x", "y", "b")` on a
fresh accumulator. -/
theorem claim_C1_soft_checks_never_raise_witness :
    (Assert.run (.equals (.vStr "x") (.vStr "y") "b") ⟨[]⟩).2 = none ∧
      ((Assert.run (.equals (.vStr "x") (.vStr "y") "b") ⟨[]⟩).1.errors =
          (⟨[]⟩ : AssertState).errors ∨
        ∃ r, (Assert.run (.equals (.vStr "x") (.vStr "y") "b") ⟨[]⟩).1.errors =
          (⟨[]⟩ : AssertState).errors ++ [r]) :=
  claim_C1_soft_checks_never_raise (.equals (.vStr "x") (.vStr "y") "b") ⟨[]⟩ rfl

/-- C2: after any call to `assertAll` — raising or not — the pending list is
empty, and a second `assertAll` immediately after raises nothing and changes
nothing. -/
theorem claim_C2_assertAll_drains (s : AssertState) :
    (Assert.assertAll s).1.errors = [] ∧
      Assert.assertAll (Assert.assertAll s).1 = ((Assert.assertAll s).1, none) := by
  unfold Assert.assertAll
  by_cases h : s.errors.length ≠ 0
  · simp [h, Assert.assertAll]
  · simp only [ne_eq, not_not] at h
    have : s.errors = [] := List.length_eq_zero.mp h
    simp [this, Assert.assertAll]

/-- C3: the claim says every strict check raises on failure, but
`strictIsLessThan` (src/src/lib/assert.ts:766) is missing the `assertAll`
call: on the failing input `strictIsLessThan(5, 3, "m")` it appends its
record and returns normally without raising, while a failing sibling such as
`strictEquals(1, 2, "m")` does raise. -/
theorem claim_C3_strictIsLessThan_does_not_raise :
    (Assert.run (.strictIsLessThan (.fin 5) (.fin 3) "m") ⟨[]⟩).2 = none ∧
      (Assert.run (.strictIsLessThan (.fin 5) (.fin 3) "m") ⟨[]⟩).1.errors ≠ [] ∧
      (Assert.run (.strictEquals (.vNum (.fin 1)) (.vNum (.fin 2)) "m") ⟨[]⟩).2 ≠ none := by
  refine ⟨rfl, ?_, ?_⟩
  · simp [Assert.run, Assert.strictIsLessThan, JsNum.jsGe, JsNum.jsLe, AssertState.push]
    norm_num
  · simp [Assert.run, Assert.strictEquals, isEqual, Assert.assertAll_push]

/-- C10 (amended): every check call that raises nothing either leaves the
pending list unchanged or appends exactly one record at its end; when a call
does raise (the `assertAll` drain inside a failing strict check), the raised
aggregate carries the old records followed by the one new record and the
drain leaves the list empty.  Removal thus happens only through a raising
drain, never through the append phase of a check. -/
theorem claim_C10_checks_append_only (c : CheckCall) (s : AssertState) :
    StepSpec s (Assert.run c s) :=
  Assert.run_stepSpec c s

/-- Counterexample to C10 as stated: a failing strict check on an accumulator
that already holds one record leaves the pending list neither unchanged nor
extended — the drain it triggers empties it, removing the earlier record. -/
theorem claim_C10_counterexample :
    ¬((Assert.run (.strictIsTrue (.vBool false) "m") ⟨[⟨"m0"⟩]⟩).1.errors =
        [⟨"m0"⟩] ∨
      ∃ r, (Assert.run (.strictIsTrue (.vBool false) "m") ⟨[⟨"m0"⟩]⟩).1.errors =
        [⟨"m0"⟩] ++ [r]) := by
  intro h
  rcases h with h | ⟨r, h⟩ <;>
    simp [Assert.run, Assert.strictIsTrue, JsValue.toBool, JsValue.typeOf,
      Assert.assertAll_push] at h

/-- C6: the live guard of `Assert.isNumber` is only `_.isNaN(value)`, so
contrary to the claim (and to the doc comment of the method itself, which
lists `null`, `undefined` and the infinities as failing) every value other
than the number NaN passes: `null`, `undefined`, strings and `Infinity`
record no failure, only NaN records one, and `42` passes. -/
theorem claim_C6_isNumber_only_rejects_nan :
    (Assert.isNumber .vNull "m" ⟨[]⟩).errors = [] ∧
      (Assert.isNumber .vUndefined "m" ⟨[]⟩).errors = [] ∧
      (Assert.isNumber (.vStr "hello") "m" ⟨[]⟩).errors = [] ∧
      (Assert.isNumber (.vNum .posInf) "m" ⟨[]⟩).errors = [] ∧
      (Assert.isNumber (.vNum .nan) "m" ⟨[]⟩).errors ≠ [] ∧
      (Assert.isNumber (.vNum (.fin 42)) "m" ⟨[]⟩).errors = [] := by
  refine ⟨rfl, rfl, rfl, rfl, ?_, rfl⟩
  simp [Assert.isNumber, lodashIsNaN, AssertState.push]

/-- C7: in the lodash `MagicAssert` variant (src/unnamed/part_002:176) the
guard of `notEqual` is inverted — on `("foo", "doo")`, where `equals` fails,
`notEqual` records a failure too instead of passing, and on `("foo", "foo")`
it passes; the current core `Assert.notEqual` does satisfy the claim:
it passes exactly when `Assert.equals` on the same pair records a failure. -/
theorem claim_C7_notEqual_complement :
    (MagicAssertV2.notEqual (.vStr "foo") (.vStr "doo") "m" ⟨[]⟩).errors ≠ [] ∧
      (MagicAssertV2.equals (.vStr "foo") (.vStr "doo") "m" ⟨[]⟩).errors ≠ [] ∧
      (MagicAssertV2.notEqual (.vStr "foo") (.vStr "foo") "m" ⟨[]⟩).errors = [] ∧
      (∀ (a e : JsValue) (m : String) (s : AssertState),
        (Assert.notEqual a e m s).errors = s.errors ↔
          ¬(Assert.equals a e m s).errors = s.errors) := by
  refine ⟨?_, ?_, ?_, ?_⟩
  · simp [MagicAssertV2.notEqual, isEqual, AssertState.push]
  · simp [MagicAssertV2.equals, isEqual, AssertState.push]
  · simp [MagicAssertV2.notEqual, isEqual]
  · intro a e m s
    unfold Assert.notEqual Assert.equals
    by_cases h : isEqual a e <;>
      simp [h, AssertState.push, appendOne_ne_self]

/-- C8 counterexample: the claim says every non-false falsy input records a
failure, but `Assert.isFalse` is `if (value)`, so `0`, the empty string,
`null` and `undefined` all pass (no record is appended). -/
theorem claim_C8_counterexample_falsy_passes :
    (Assert.isFalse (.vNum (.fin 0)) "m" ⟨[]⟩).errors = [] ∧
      (Assert.isFalse (.vStr "") "m" ⟨[]⟩).errors = [] ∧
      (Assert.isFalse .vNull "m" ⟨[]⟩).errors = [] ∧
      (Assert.isFalse .vUndefined "m" ⟨[]⟩).errors = [] := by
  refine ⟨?_, rfl, rfl, rfl⟩
  simp [Assert.isFalse, JsValue.toBool]

/-- C8 (amended): `isFalse` passes exactly when the value is falsy under
JavaScript truthiness — the boolean false passes, but so does every other
falsy value; every truthy value records a failure. -/
theorem claim_C8_isFalse_passes_iff_falsy (v : JsValue) (m : String) (s : AssertState) :
    (Assert.isFalse v m s).errors = s.errors ↔ v.toBool = false := by
  unfold Assert.isFalse
  by_cases h : v.toBool <;> simp [h, AssertState.push, appendOne_ne_self]

/-- C9: in the node `MagicAssert` variant (src/unnamed/part_003:146) the
guard of `isTrue` is inverted (`if (value === true) throw`, caught and
recorded): `isTrue(true)` records a failure and `isTrue(false)` passes,
contradicting the claim and the doc examples directly above the method.  The
current core `Assert.isTrue` matches the claim: the boolean true passes and
truthy non-booleans such as `1` or `"yes"` record a failure. -/
theorem claim_C9_magicV3_isTrue_inverted :
    (MagicAssertV3.isTrue true "m" ⟨[]⟩).errors ≠ [] ∧
      (MagicAssertV3.isTrue false "m" ⟨[]⟩).errors = [] ∧
      (Assert.isTrue (.vBool true) "m" ⟨[]⟩).errors = [] ∧
      (Assert.isTrue (.vBool false) "m" ⟨[]⟩).errors ≠ [] ∧
      (Assert.isTrue (.vNum (.fin 1)) "m" ⟨[]⟩).errors ≠ [] ∧
      (Assert.isTrue (.vStr "yes") "m" ⟨[]⟩).errors ≠ [] := by
  refine ⟨?_, rfl, ?_, ?_, ?_, ?_⟩
  · simp [MagicAssertV3.isTrue, AssertState.push]
  · simp [Assert.isTrue, JsValue.toBool, JsValue.typeOf]
  · simp [Assert.isTrue, JsValue.toBool, JsValue.typeOf, AssertState.push]
  · simp [Assert.isTrue, JsValue.toBool, JsValue.typeOf, AssertState.push]
  · simp [Assert.isTrue, JsValue.toBool, JsValue.typeOf, AssertState.push]

/-- The entry template of the source (one flat template literal) renders the
same string as the claim-side decomposition. -/
theorem renderEntry_eq (n : Nat) (r : FailureRecord) :
    "❌ [Assertion " ++ toString n ++ "]: \n" ++ r.message ++ "\n" =
      LogHelperSpec.renderEntry n r := by
  unfold LogHelperSpec.renderEntry
  rw [String.append_assoc ("❌ [Assertion " ++ toString n) "]: " "\n"]
  rfl

/-- The 0-based `map` with `index + 1` of the source produces exactly the
1-based indexed rendering of the claim, for any starting offset. -/
theorem mapIdx_renderFrom (l : List FailureRecord) :
    ∀ n : Nat,
      l.mapIdx (fun i r =>
          "❌ [Assertion " ++ toString (i + n + 1) ++ "]: \n" ++ r.message ++ "\n") =
        LogHelperSpec.renderFrom (n + 1) l := by
  induction l with
  | nil => intro n; simp [LogHelperSpec.renderFrom]
  | cons r rs ih =>
    intro n
    rw [List.mapIdx_cons]
    unfold LogHelperSpec.renderFrom
    congr 1
    · simpa using renderEntry_eq (n + 1) r
    · have harg : ∀ i : Nat, i + 1 + n + 1 = i + (n + 1) + 1 := fun i => by omega
      simp only [harg]
      exact ih (n + 1)

/-- The function `throwAssertionErrors` produces exactly the aggregate message the claim
describes: banner line, then the pending failures rendered with 1-based
indices in insertion order, blank-line separated. -/
theorem throwAssertionErrors_eq_spec (records : List FailureRecord) :
    LogHelper.throwAssertionErrors records = ⟨LogHelperSpec.specMessage records⟩ := by
  unfold LogHelper.throwAssertionErrors LogHelperSpec.specMessage
  have h := mapIdx_renderFrom records 0
  simp only [Nat.add_zero, Nat.zero_add] at h
  rw [h]
  rfl

/-- C4: when `assertAll` raises, the raised message is the banner line
followed by each pending failure rendered as `❌ [Assertion <n>]: ` plus a
newline plus the failure message plus a newline, entries separated by blank
lines, in original insertion order, with 1-based indices. -/
theorem claim_C4_aggregate_message_format (s : AssertState) (h : s.errors ≠ []) :
    (Assert.assertAll s).2 = some ⟨LogHelperSpec.specMessage s.errors⟩ := by
  unfold Assert.assertAll
  rw [if_pos (fun hh => h (List.length_eq_zero.mp hh))]
  simp [throwAssertionErrors_eq_spec]

/-- Witness for C4 on a concrete two-record accumulator. -/
theorem claim_C4_aggregate_message_format_witness :
    (Assert.assertAll ⟨[⟨"alpha"⟩, ⟨"beta"⟩]⟩).2 =
      some ⟨LogHelperSpec.specMessage [⟨"alpha"⟩, ⟨"beta"⟩]⟩ :=
  claim_C4_aggregate_message_format ⟨[⟨"alpha"⟩, ⟨"beta"⟩]⟩ (by simp)

/-- In an object without duplicate keys, lookup of the key of a field returns
exactly the value of that field. -/
theorem lookupField_of_mem :
    ∀ {fs : List (String × JsValue)} {k : String} {v : JsValue},
      keysNodup fs = true → (k, v) ∈ fs → lookupField k fs = some v := by
  intro fs
  induction fs with
  | nil => intro k v _ hm; cases hm
  | cons p rest ih =>
    intro k v hnd hm
    obtain ⟨k', v'⟩ := p
    simp only [keysNodup, Bool.and_eq_true, Bool.not_eq_eq_eq_not, Bool.not_true,
      List.any_eq_false, beq_eq_false_iff_ne, ne_eq] at hnd
    rcases List.mem_cons.mp hm with heq | hmem
    · injection heq with h1 h2
      subst h1; subst h2
      simp [lookupField]
    · have hne : k' ≠ k := by
        intro he
        subst he
        exact hnd.1 (k', v) hmem (by simp)
      simp only [lookupField, if_neg hne]
      exact ih hnd.2 hmem

/-- If every field of `sub` is found in `fs` with a self-equal value, the
fieldwise comparison succeeds. -/
theorem isEqualFields_of :
    ∀ (sub fs : List (String × JsValue)),
      (∀ p ∈ sub, lookupField p.1 fs = some p.2 ∧ isEqual p.2 p.2 = true) →
      isEqualFields sub fs = true
  | [], _, _ => by simp [isEqualFields]
  | (k, v) :: rest, fs, h => by
    have h1 := h (k, v) (List.mem_cons_self _ _)
    have h2 := isEqualFields_of rest fs (fun p hp => h p (List.mem_cons_of_mem _ hp))
    simp only [isEqualFields] at h1 ⊢
    rw [h1.1]
    simp [h1.2, h2]

/-- Well-formedness of an object covers every field value. -/
theorem jsWFFields_mem :
    ∀ {fs : List (String × JsValue)}, JsWFFields fs = true →
      ∀ p ∈ fs, JsWF p.2 = true := by
  intro fs
  induction fs with
  | nil => intro _ p hp; cases hp
  | cons q rest ih =>
    intro h p hp
    obtain ⟨k, v⟩ := q
    simp only [JsWFFields, Bool.and_eq_true] at h
    rcases List.mem_cons.mp hp with heq | hmem
    · subst heq; exact h.1
    · exact ih h.2 p hmem

/-- Well-formedness of an array covers every element. -/
theorem jsWFList_mem :
    ∀ {xs : List JsValue}, JsWFList xs = true → ∀ v ∈ xs, JsWF v = true := by
  intro xs
  induction xs with
  | nil => intro _ v hv; cases hv
  | cons x rest ih =>
    intro h v hv
    simp only [JsWFList, Bool.and_eq_true] at h
    rcases List.mem_cons.mp hv with heq | hmem
    · subst heq; exact h.1
    · exact ih h.2 v hmem

mutual
/-- lodash deep equality is reflexive on well-formed values (a value whose
objects held a key twice would compare unequal to itself, but JavaScript
objects cannot hold a key twice). -/
theorem isEqual_refl : ∀ (v : JsValue), JsWF v = true → isEqual v v = true
  | .vNull, _ => by simp [isEqual]
  | .vUndefined, _ => by simp [isEqual]
  | .vBool _, _ => by simp [isEqual]
  | .vNum _, _ => by simp [isEqual]
  | .vStr _, _ => by simp [isEqual]
  | .vArr xs, h => by
    have hl : JsWFList xs = true := by simpa [JsWF] using h
    simpa [isEqual] using isEqualList_refl xs hl
  | .vObj fs, h => by
    have h' : keysNodup fs = true ∧ JsWFFields fs = true := by
      simpa [JsWF] using h
    have hfields : isEqualFields fs fs = true :=
      isEqualFields_refl_aux fs fs h'.1 h'.2 (fun _ hp => hp)
    simp [isEqual, hfields]
termination_by v _ => sizeOf v

/-- Elementwise reflexivity for arrays. -/
theorem isEqualList_refl : ∀ (xs : List JsValue), JsWFList xs = true →
    isEqualList xs xs = true
  | [], _ => by simp [isEqualList]
  | x :: xs, h => by
    have h' : JsWF x = true ∧ JsWFList xs = true := by simpa [JsWFList] using h
    simp [isEqualList, isEqual_refl x h'.1, isEqualList_refl xs h'.2]
termination_by xs _ => sizeOf xs

/-- Fieldwise reflexivity: every field of a well-formed sub-list of a
duplicate-free object is found back in it with an equal value. -/
theorem isEqualFields_refl_aux :
    ∀ (sub fs : List (String × JsValue)), keysNodup fs = true →
      JsWFFields sub = true → (∀ p ∈ sub, p ∈ fs) → isEqualFields sub fs = true
  | [], _, _, _, _ => by simp [isEqualFields]
  | (k, v) :: rest, fs, hnd, hwf, hsub => by
    have hw : JsWF v = true ∧ JsWFFields rest = true := by simpa [JsWFFields] using hwf
    have hlk : lookupField k fs = some v :=
      lookupField_of_mem hnd (hsub (k, v) (List.mem_cons_self _ _))
    have hvv : isEqual v v = true := isEqual_refl v hw.1
    have htl : isEqualFields rest fs = true :=
      isEqualFields_refl_aux rest fs hnd hw.2 (fun p hp => hsub p (List.mem_cons_of_mem _ hp))
    simp only [isEqualFields]
    rw [hlk]
    simp [hvv, htl]
termination_by sub _ _ _ _ => sizeOf sub
end

/-- The predicate `keysNodup` is duplicate-freedom of the key list. -/
theorem keysNodup_iff (fs : List (String × JsValue)) :
    keysNodup fs = true ↔ (fs.map Prod.fst).Nodup := by
  induction fs with
  | nil => simp [keysNodup]
  | cons p rest ih =>
    obtain ⟨k, v⟩ := p
    rw [List.map_cons, List.nodup_cons, ← ih]
    simp only [keysNodup, Bool.and_eq_true, Bool.not_eq_eq_eq_not, Bool.not_true,
      List.any_eq_false, beq_iff_eq, beq_eq_false_iff_ne, ne_eq, List.mem_map,
      not_exists]
    tauto

/-- Two well-formed objects holding the same fields in any order are deeply
equal. -/
theorem isEqual_obj_perm (fa fb : List (String × JsValue))
    (hwf : JsWF (.vObj fa) = true) (hperm : fa.Perm fb) :
    isEqual (.vObj fa) (.vObj fb) = true := by
  have h' : keysNodup fa = true ∧ JsWFFields fa = true := by simpa [JsWF] using hwf
  have hndb : keysNodup fb = true := by
    rw [keysNodup_iff] at h' ⊢
    exact ((hperm.map Prod.fst).nodup_iff).mp h'.1
  have hlen : fa.length = fb.length := hperm.length_eq
  have hf : isEqualFields fa fb = true := by
    apply isEqualFields_of
    intro p hp
    refine ⟨?_, isEqual_refl p.2 (jsWFFields_mem h'.2 p hp)⟩
    have hpb : (p.1, p.2) ∈ fb := by
      simpa using hperm.mem_iff.mp hp
    exact lookupField_of_mem hndb hpb
  simp [isEqual, hlen, hf]

/-- C5: the `equals` check records no failure exactly when lodash deep
structural equality holds; that equality compares arrays elementwise by
value, compares objects by their key-value pairs independently of key order,
treats NaN as equal to NaN, and equates `null` only with `null`. -/
theorem claim_C5_equals_deep_structural :
    (∀ (actual expected : JsValue) (m : String) (s : AssertState),
        (Assert.equals actual expected m s).errors = s.errors ↔
          isEqual actual expected = true)
    ∧ (∀ xs : List JsValue, JsWFList xs = true →
        isEqual (.vArr xs) (.vArr xs) = true)
    ∧ (∀ fa fb : List (String × JsValue), JsWF (.vObj fa) = true → fa.Perm fb →
        isEqual (.vObj fa) (.vObj fb) = true)
    ∧ isEqual (.vNum .nan) (.vNum .nan) = true
    ∧ (∀ v : JsValue, isEqual .vNull v = true ↔ v = .vNull) := by
  refine ⟨?_, ?_, isEqual_obj_perm, by simp [isEqual], ?_⟩
  · intro a e m s
    unfold Assert.equals
    by_cases h : isEqual a e <;> simp [h, AssertState.push, appendOne_ne_self]
  · intro xs h
    simpa [isEqual] using isEqualList_refl xs h
  · intro v
    cases v <;> simp [isEqual]

/-- Witness for C5: two equal arrays leave the pending list unchanged, a
concrete array equals itself, and two objects with swapped field order are
equal. -/
theorem claim_C5_equals_deep_structural_witness :
    (Assert.equals (.vArr [.vNum (.fin 1), .vNum (.fin 2), .vNum (.fin 3)])
        (.vArr [.vNum (.fin 1), .vNum (.fin 2), .vNum (.fin 3)]) "m" ⟨[]⟩).errors =
      (⟨[]⟩ : AssertState).errors
    ∧ isEqual (.vArr [.vStr "a"]) (.vArr [.vStr "a"]) = true
    ∧ isEqual (.vObj [("a", .vNum (.fin 1)), ("b", .vNum (.fin 2))])
        (.vObj [("b", .vNum (.fin 2)), ("a", .vNum (.fin 1))]) = true :=
  ⟨(claim_C5_equals_deep_structural.1 _ _ "m" ⟨[]⟩).mpr
      (by simp [isEqual, isEqualList]),
    claim_C5_equals_deep_structural.2.1 _ (by simp [JsWFList, JsWF]),
    claim_C5_equals_deep_structural.2.2.1 _ _
      (by simp [JsWF, keysNodup, JsWFFields])
      (List.Perm.swap ("b", JsValue.vNum (.fin 2)) ("a", JsValue.vNum (.fin 1)) [])⟩

/-- Witness for the amended C10 at a concrete passing call on a fresh
accumulator. -/
theorem claim_C10_checks_append_only_witness :
    StepSpec ⟨[]⟩ (Assert.run (.isNull .vNull "m") ⟨[]⟩) :=
  claim_C10_checks_append_only (.isNull .vNull "m") ⟨[]⟩
